import Mathlib

/-!
Shallow embedding of the filter-extraction and normalization pipeline of the
CommonLight crisis portal:

* `transformFiltersToBackendParams` (src/lib/api/transform.ts),
* the backend HTTP client with its retry loop (`fetchWithRetry`,
  `BackendClient.searchResources`, `BackendClient.getResourceById`),
* the `GET /api/resources/[id]` route handler,
* the extraction route `POST /api/llm/extract-filters` with its validator
  (`validateExtractedFilters`), keyword fallback (`createBasicFilters`) and the
  provider orchestration (`extractFiltersWithFallback`, src/lib/api/llm-fallback.ts),
* `FilterUtils.toURLParams` / `FilterUtils.fromURLParams` (src/types/search.ts).

JavaScript floating point numbers are abstracted by `JSNumber`: the string the
value renders to (its `toString`), its truthiness (false exactly for `0` and
`NaN`) and its finiteness (`Number.isFinite`).  The pipeline never does float
arithmetic: it only renders numbers into strings, tests truthiness, and tests
`typeof`, so this abstraction is exact for every operation the code performs.
Effectful calls (HTTP fetches, LLM provider calls) are modelled by explicit
behaviour parameters (`Nat → FetchResult` response schedules, `Except`-valued
provider outcomes); thrown JS exceptions are `Except.error`.
-/

set_option autoImplicit false

namespace CrisisPortal

/-- Abstraction of a JavaScript float: its `toString` rendering, its truthiness
(`false` for `0`/`-0`/`NaN`) and its `Number.isFinite`. -/
structure JSNumber where
  repr : String
  truthy : Bool
  finite : Bool
deriving Repr, DecidableEq

/-- The JS value `NaN`: renders "NaN", falsy, not finite, but `typeof` is "number". -/
def jsNaN : JSNumber := ⟨"NaN", false, false⟩

/-- A nonzero finite JS number literal, given by its rendering. -/
def jsNumLit (r : String) : JSNumber := ⟨r, true, true⟩

/-- A natural number as a JS number. -/
def jsNat (n : Nat) : JSNumber := ⟨toString n, decide (n ≠ 0), true⟩

/-- A value sitting in a coordinate slot at runtime.  The TS type says `number`,
but the slot is populated from a deserialized query string, so the code guards
with `typeof`; a non-number artifact carries its `typeof` name and rendering. -/
inductive JSCoordVal where
  | num (n : JSNumber)
  | nonNum (tyName : String) (repr : String)
deriving Repr, DecidableEq

/-- Rendering of a coordinate slot value (template-literal interpolation). -/
def JSCoordVal.render : JSCoordVal → String
  | .num n => n.repr
  | .nonNum _ r => r

/-- The `typeof` of a coordinate slot value. -/
def JSCoordVal.typeofName : JSCoordVal → String
  | .num _ => "number"
  | .nonNum t _ => t

/-- Care phases from `types/search.ts`. -/
inductive CarePhase where
  | immediate_crisis
  | acute_support
  | recovery_support
  | maintenance
deriving Repr, DecidableEq

/-- Rendering of a care phase (the enum is a string union in TS). -/
def CarePhase.render : CarePhase → String
  | .immediate_crisis => "immediate_crisis"
  | .acute_support => "acute_support"
  | .recovery_support => "recovery_support"
  | .maintenance => "maintenance"

/-- Gender restriction values from `types/search.ts`. -/
inductive Gender where
  | male
  | female
deriving Repr, DecidableEq

/-- Rendering of a gender restriction value. -/
def Gender.render : Gender → String
  | .male => "male"
  | .female => "female"

/-- Coordinates object from `types/search.ts` (`LocationCoordinate`); slots hold
runtime values that may fail the `typeof` guard. -/
structure Coordinates where
  lat : JSCoordVal
  lon : JSCoordVal
deriving Repr, DecidableEq

/-- The `SearchLocation` shape from `types/search.ts`. -/
structure SearchLocation where
  address : String
  coordinates : Option Coordinates
deriving Repr, DecidableEq

/-- A runtime element of the `service_types` array.  The array arrives from
JSON as strings, but the validator's alias substitution
`SERVICE_TYPE_ALIASES[type]` is a JS property read that falls through to the
prototype chain: for a key such as `"toString"` it yields the inherited —
and truthy — `Object.prototype.toString` function, which the program then
pushes into the corrected list.  `protoMember n` is the value of the
inherited `Object.prototype` member named `n` (a function, or the
`Object.prototype` object itself for `__proto__`); two lookups of the same
member yield the same reference, so equality of names models reference
equality. -/
inductive STElem where
  | str (s : String)
  | protoMember (name : String)
deriving Repr, DecidableEq

/-- The property names of `Object.prototype` (ECMA-262 plus the Annex B
`__proto__` accessor): a bare object literal inherits all of these, and each
of their values is truthy. -/
def objectProtoKeys : List String :=
  ["constructor", "hasOwnProperty", "isPrototypeOf", "propertyIsEnumerable",
   "toLocaleString", "toString", "valueOf",
   "__defineGetter__", "__defineSetter__", "__lookupGetter__",
   "__lookupSetter__", "__proto__"]

/-- JS `String(el)` / `ToPropertyKey` on a service-type element: identity on
strings; an inherited `Object.prototype` function renders as native-function
source text and the `__proto__` object as `"[object Object]"`.  (The exact
native-function text is engine-flavoured; the only fact the development uses
is that it is neither a declared alias key nor an `Object.prototype` key,
which holds for every engine's rendering since the declared keys contain no
spaces or parentheses.) -/
def stElemToString : STElem → String
  | STElem.str s => s
  | STElem.protoMember n =>
    if n = "__proto__" then "[object Object]"
    else "function " ++ n ++ "() \x7b [native code] \x7d"

/-- The fields of `CanonicalSearchFilters` (types/search.ts) read or written by
the transform, the validator and the keyword fallback.  `none` is an absent
(`undefined`) field.  `service_types` holds `STElem`s because the validator
can (buggily) insert inherited `Object.prototype` members into it. -/
structure CanonicalSearchFilters where
  keywords : Option String := none
  care_phase : Option CarePhase := none
  location : Option SearchLocation := none
  max_distance_km : Option JSNumber := none
  service_types : Option (List STElem) := none
  insurance : Option (List String) := none
  languages : Option (List String) := none
  age_groups : Option (List String) := none
  has_crisis_services : Option Bool := none
  walk_ins_accepted : Option Bool := none
  referral_required : Option Bool := none
  gender_specific : Option Gender := none
  lgbtq_affirming : Option Bool := none
  wheelchair_accessible : Option Bool := none
  telehealth_available : Option Bool := none
  urgentAccessOnly : Option Bool := none
  acceptingNewPatients : Option Bool := none
  verified_only : Option Bool := none
  min_rcs : Option JSNumber := none
  limit : Option JSNumber := none
  offset : Option JSNumber := none
deriving Repr, DecidableEq

/-- Rendering of a JS boolean (`.toString()`). -/
def boolRender (b : Bool) : String := cond b "true" "false"

/-- Optional `(key, value)` pair for a truthy optional JS number
(`if (filters.x) params.y = filters.x.toString()`; `0` and `NaN` are falsy). -/
def numParam (key : String) : Option JSNumber → List (String × String)
  | some n => if n.truthy then [(key, n.repr)] else []
  | none => []

/-- Optional pair for an array field guarded by `?.length` (empty array skipped),
joined with commas. -/
def listParam (key : String) : Option (List String) → List (String × String)
  | some l => if l.isEmpty then [] else [(key, String.intercalate "," l)]
  | none => []

/-- Optional pair for the `service_types` array (guarded by `?.length`),
joined with commas; `Array.prototype.join` stringifies each element with
`String(el)`. -/
def stListParam (key : String) : Option (List STElem) → List (String × String)
  | some l => if l.isEmpty then [] else [(key, String.intercalate "," (l.map stElemToString))]
  | none => []

/-- Optional pair for a boolean field guarded by `!== undefined`. -/
def boolParam (key : String) : Option Bool → List (String × String)
  | some b => [(key, boolRender b)]
  | none => []

/-- Embedding of `transformFiltersToBackendParams` (src/lib/api/transform.ts).
The output `Record<string, string>` is the list of `(key, value)` pairs in
insertion order (all keys are distinct by construction); a thrown `Error` is
`Except.error` carrying the message. -/
def transformFiltersToBackendParams (filters : CanonicalSearchFilters) :
    Except String (List (String × String)) := do
  let queryPart : List (String × String) :=
    match filters.keywords with
    | some k => if k = "" then [] else [("query", k)]
    | none => []
  let locationPart : List (String × String) ←
    match filters.location with
    | none => pure []
    | some loc =>
      match loc.coordinates with
      | none => pure []
      | some c =>
        match c.lat, c.lon with
        | JSCoordVal.num la, JSCoordVal.num lo =>
          pure [("location", la.repr ++ "," ++ lo.repr)]
        | la, lo =>
          Except.error ("Invalid location coordinates: lat=" ++ la.render ++
            " (" ++ la.typeofName ++ "), lon=" ++ lo.render ++
            " (" ++ lo.typeofName ++ ")")
  let genderPart : List (String × String) :=
    match filters.gender_specific with
    | some g => [("gender_specific", g.render)]
    | none => []
  let carePhasePart : List (String × String) :=
    match filters.care_phase with
    | some cp => [("care_phase", cp.render)]
    | none => []
  let minRcsPart : List (String × String) :=
    match filters.min_rcs with
    | some n => [("min_confidence", n.repr)]
    | none => []
  pure (queryPart ++ locationPart ++
    numParam "radius_km" filters.max_distance_km ++
    stListParam "service_types" filters.service_types ++
    listParam "insurance_types" filters.insurance ++
    listParam "languages" filters.languages ++
    listParam "age_groups" filters.age_groups ++
    boolParam "has_crisis_services" filters.has_crisis_services ++
    boolParam "walk_ins_accepted" filters.walk_ins_accepted ++
    boolParam "referral_required" filters.referral_required ++
    genderPart ++
    boolParam "lgbtq_affirming" filters.lgbtq_affirming ++
    boolParam "wheelchair_accessible" filters.wheelchair_accessible ++
    boolParam "telehealth_available" filters.telehealth_available ++
    boolParam "urgent_access_only" filters.urgentAccessOnly ++
    boolParam "accepting_new_patients" filters.acceptingNewPatients ++
    carePhasePart ++
    boolParam "verified_only" filters.verified_only ++
    minRcsPart ++
    numParam "limit" filters.limit ++
    numParam "offset" filters.offset)

/-! ## Backend client: `fetchWithRetry` and its wrappers (backend-client source) -/

/-- Outcome of one `fetch` call: `ok` (2xx / `response.ok`), a non-ok HTTP
status with its status text, or a thrown network error. -/
inductive FetchResult where
  | ok
  | httpStatus (status : Nat) (statusText : String)
  | netError (msg : String)
deriving Repr, DecidableEq

/-- Decidable equality for `Except`, needed to decide concrete run outcomes. -/
instance exceptDecEq {ε α : Type} [DecidableEq ε] [DecidableEq α] :
    DecidableEq (Except ε α) := fun a b =>
  match a, b with
  | Except.ok x, Except.ok y =>
    if h : x = y then Decidable.isTrue (by rw [h])
    else Decidable.isFalse (by intro hc; cases hc; exact h rfl)
  | Except.error x, Except.error y =>
    if h : x = y then Decidable.isTrue (by rw [h])
    else Decidable.isFalse (by intro hc; cases hc; exact h rfl)
  | Except.ok _, Except.error _ => Decidable.isFalse (by intro hc; cases hc)
  | Except.error _, Except.ok _ => Decidable.isFalse (by intro hc; cases hc)

/-- Observable run of `fetchWithRetry`: final outcome, number of `fetch` calls
performed, and the backoff delays waited (in ms, in order). -/
structure RetryRun where
  outcome : Except String Unit
  attempts : Nat
  delays : List Nat
deriving Repr, DecidableEq

/-- The retry options shape of the backend client. -/
structure RetryOptions where
  maxRetries : Nat
  backoffMs : Nat
  retryableStatuses : List Nat
deriving Repr, DecidableEq

/-- Embedding of `DEFAULT_RETRY_OPTIONS` from the backend client. -/
def DEFAULT_RETRY_OPTIONS : RetryOptions := ⟨3, 1000, [408, 429, 500, 502, 503, 504]⟩

/-- Message of the `Error` built from a non-ok response:
`HTTP ${response.status}: ${response.statusText}`. -/
def httpErrMsg (status : Nat) (statusText : String) : String :=
  "HTTP " ++ toString status ++ ": " ++ statusText

/-- The `for (let attempt = 0; attempt <= maxRetries; attempt++)` loop of
`fetchWithRetry`, with fuel `maxRetries + 1 - attempt` (the iterations left).
Faithful points to note against the source:
* `response.ok` returns immediately;
* a non-retryable status throws inside the `try`, so it is caught by the
  `catch` of the same iteration and rethrown only when `attempt === maxRetries`
  — otherwise it falls through to the backoff and the next attempt, exactly
  like a network error;
* a retryable status only records `lastError`; when the loop exhausts its
  iterations, `lastError` is thrown after the loop;
* the backoff `backoffMs * 2 ** attempt` is waited only when
  `attempt < maxRetries`. -/
def runRetryGo (responses : Nat → FetchResult) (retryable : List Nat)
    (backoffMs maxRetries : Nat) : Nat → Nat → Option String → RetryRun
  | 0, _, lastError => ⟨Except.error (lastError.getD "Max retries exceeded"), 0, []⟩
  | Nat.succ fuel, attempt, _ =>
    match responses attempt with
    | FetchResult.ok => ⟨Except.ok (), 1, []⟩
    | FetchResult.httpStatus s st =>
      if retryable.contains s = false ∧ attempt = maxRetries then
        ⟨Except.error (httpErrMsg s st), 1, []⟩
      else
        let rest := runRetryGo responses retryable backoffMs maxRetries fuel
          (attempt + 1) (some (httpErrMsg s st))
        ⟨rest.outcome, rest.attempts + 1,
          (if attempt < maxRetries then [backoffMs * 2 ^ attempt] else []) ++ rest.delays⟩
    | FetchResult.netError m =>
      if attempt = maxRetries then ⟨Except.error m, 1, []⟩
      else
        let rest := runRetryGo responses retryable backoffMs maxRetries fuel
          (attempt + 1) (some m)
        ⟨rest.outcome, rest.attempts + 1,
          (if attempt < maxRetries then [backoffMs * 2 ^ attempt] else []) ++ rest.delays⟩

/-- Embedding of `fetchWithRetry` from the backend client: run the attempt loop
from attempt 0 with `maxRetries + 1` iterations available and no `lastError`. -/
def fetchWithRetry (responses : Nat → FetchResult) (opts : RetryOptions) : RetryRun :=
  runRetryGo responses opts.retryableStatuses opts.backoffMs opts.maxRetries
    (opts.maxRetries + 1) 0 none

/-- The `BackendAPIError` class: message, optional `statusCode`, and the wrapped
original error message (the `responseBody.originalError` field). -/
structure BackendAPIError where
  message : String
  statusCode : Option Nat
  originalErrorMsg : Option String
deriving Repr, DecidableEq

/-- Embedding of `BackendClient.searchResources`: run the fetch with default
retry options and wrap any thrown error in a `BackendAPIError` whose
`statusCode` argument is not supplied (`undefined`). -/
def BackendClient.searchResources (responses : Nat → FetchResult) :
    Except BackendAPIError Unit :=
  match (fetchWithRetry responses DEFAULT_RETRY_OPTIONS).outcome with
  | Except.ok _ => Except.ok ()
  | Except.error e => Except.error ⟨"Failed to search resources", none, some e⟩

/-- Embedding of `BackendClient.getResourceById`: same wrapping with its own
message; the resource JSON itself is out of scope (`Unit`). -/
def BackendClient.getResourceById (responses : Nat → FetchResult) :
    Except BackendAPIError Unit :=
  match (fetchWithRetry responses DEFAULT_RETRY_OPTIONS).outcome with
  | Except.ok _ => Except.ok ()
  | Except.error e => Except.error ⟨"Failed to get resource details", none, some e⟩

/-! ## The `GET /api/resources/[id]` route handler -/

/-- Hex digit, case-insensitive, as in the character class `[0-9a-f]` with the
`i` flag. -/
def isHexDigit (c : Char) : Bool :=
  c.isDigit || decide ('a' ≤ c ∧ c ≤ 'f') || decide ('A' ≤ c ∧ c ≤ 'F')

/-- The anchored UUID regex
`^[0-9a-f]{8}-[0-9a-f]{4}-[0-9a-f]{4}-[0-9a-f]{4}-[0-9a-f]{12}$/i`:
length 36, hyphens at offsets 8, 13, 18 and 23, hex digits elsewhere. -/
def uuidRegexTest (s : String) : Bool :=
  let cs := s.toList
  cs.length = 36 &&
    (List.range 36).all (fun i =>
      if i = 8 || i = 13 || i = 18 || i = 23 then cs.getD i ' ' = '-'
      else isHexDigit (cs.getD i ' '))

/-- An HTTP response produced by a route handler: status code plus the `error`
field of the JSON body (absent on success). -/
structure RouteResponse where
  status : Nat
  errorMsg : Option String
deriving Repr, DecidableEq

/-- Embedding of the `GET /api/resources/[id]` route handler: UUID validation
before any backend call, then the `BackendAPIError` branching of the source
(`statusCode === 404` → 404, otherwise `statusCode || 500` — the `||` falls
back to 500 on `undefined` and on the falsy status 0). -/
def resourceDetailGET (id : String) (responses : Nat → FetchResult) : RouteResponse :=
  if !(uuidRegexTest id) then
    ⟨400, some "Invalid resource ID format (expected UUID)"⟩
  else
    match BackendClient.getResourceById responses with
    | Except.ok _ => ⟨200, none⟩
    | Except.error e =>
      if e.statusCode = some 404 then ⟨404, some "Resource not found"⟩
      else
        ⟨(match e.statusCode with
          | some c => if c ≠ 0 then c else 500
          | none => 500), some "Failed to fetch resource"⟩

/-! ## The extraction route: vocabulary, validator, keyword fallback, orchestrator -/

/-- Embedding of `VALID_SERVICE_TYPES` from the extract-filters route (a `Set` in the source;
membership is all that is used). -/
def VALID_SERVICE_TYPES : List String :=
  ["crisis_line", "crisis_text", "crisis_chat", "crisis_mobile",
   "crisis_walk_in", "crisis_stabilization", "suicide_prevention",
   "inpatient_psychiatric", "inpatient_dual_diagnosis",
   "residential_long_term", "residential_short_term", "partial_hospitalization",
   "outpatient_therapy", "intensive_outpatient", "medication_management",
   "telehealth_therapy", "case_management", "peer_support",
   "detox", "detox_social", "sud_inpatient", "sud_outpatient",
   "mat", "recovery_support", "harm_reduction",
   "support_group_general", "support_group_aa", "support_group_na",
   "support_group_smart", "support_group_family", "support_group_grief",
   "housing", "food", "transportation", "legal", "employment",
   "healthcare", "education", "financial"]

/-- Embedding of `SERVICE_TYPE_ALIASES` from the extract-filters route, as an association
list (key order is the object literal order). -/
def SERVICE_TYPE_ALIASES : List (String × String) :=
  [("crisis_hotline", "crisis_line"),
   ("hotline", "crisis_line"),
   ("emergency_services", "crisis_line"),
   ("emergency", "crisis_line"),
   ("988", "crisis_line"),
   ("suicide_hotline", "suicide_prevention"),
   ("mental_health", "outpatient_therapy"),
   ("therapy", "outpatient_therapy"),
   ("counseling", "outpatient_therapy"),
   ("inpatient", "inpatient_psychiatric"),
   ("residential", "residential_short_term"),
   ("rehab", "sud_inpatient"),
   ("detoxification", "detox")]

/-- First-match lookup in an association list (`SERVICE_TYPE_ALIASES[type]`,
or a JS object field read in general). -/
def assocFind {α : Type} (k : String) : List (String × α) → Option α
  | [] => none
  | p :: rest => if p.1 = k then some p.2 else assocFind k rest

/-- Model of `VALID_SERVICE_TYPES.has(type)`: a `Set<string>` compares with
SameValueZero, so only a string element can be a member. -/
def validHas : STElem → Bool
  | STElem.str s => VALID_SERVICE_TYPES.contains s
  | STElem.protoMember _ => false

/-- Model of the property read `SERVICE_TYPE_ALIASES[k]` for a property key
string `k`: first the 13 own properties of the object literal, then the
prototype chain — a bare literal inherits every `Object.prototype` member, and
all of those values are truthy, so the validator's truthiness test accepts
them.  (Every declared alias value is a nonempty string, so on own properties
truthiness coincides with presence.) -/
def aliasGet (k : String) : Option STElem :=
  match assocFind k SERVICE_TYPE_ALIASES with
  | some v => some (STElem.str v)
  | none =>
    if objectProtoKeys.contains k then some (STElem.protoMember k) else none

/-- Per-element correction of the validator's `forEach`: keep a member of the
canonical vocabulary; otherwise push whatever truthy value the property read
`SERVICE_TYPE_ALIASES[type]` yields — a declared canonical code, or an
inherited `Object.prototype` member when the element collides with one of its
property names; only a falsy (absent) lookup discards the element.  The
property key is `ToPropertyKey(type)`, i.e. `String(type)`. -/
def correctServiceType (t : STElem) : Option STElem :=
  if validHas t then some t
  else aliasGet (stElemToString t)

/-- Insertion-order deduplication, as performed by `[...new Set(xs)]`: a JS
`Set` keeps the first occurrence of each element (SameValueZero, which on our
elements is string equality and reference equality of inherited members).
`seen` is the set built so far. -/
def jsDedupAux {α : Type} [DecidableEq α] : List α → List α → List α
  | [], _ => []
  | a :: rest, seen =>
    if a ∈ seen then jsDedupAux rest seen else a :: jsDedupAux rest (a :: seen)

/-- Embedding of `[...new Set(xs)]`. -/
def jsDedup {α : Type} [DecidableEq α] (l : List α) : List α := jsDedupAux l []

/-- Token usage metadata. -/
structure TokenUsage where
  input : Nat
  output : Nat
deriving Repr, DecidableEq

/-- The `metadata` field of `LLMFilterExtractionResponse`. -/
structure LLMMetadata where
  provider : String
  model : String
  tokens : TokenUsage
deriving Repr, DecidableEq

/-- The `LLMFilterExtractionResponse` shape from `types/search.ts` (the
extraction result passed between orchestrator, validator and route). -/
structure LLMFilterExtractionResponse where
  originalQuery : String
  filters : CanonicalSearchFilters
  explanation : String
  confidence : JSNumber
  metadata : LLMMetadata
deriving Repr, DecidableEq

/-- Embedding of `validateExtractedFilters` from the extract-filters route.
The source mutates `response` in place; the embedding returns the updated
record.  Note the guard `if (response.filters?.service_types)`: when the field
is absent (`undefined`) the whole block — including the keyword restoration —
is skipped; an empty array is truthy in JS, so a present empty list does enter
the block. -/
def validateExtractedFilters (response : LLMFilterExtractionResponse)
    (originalQuery : String) : LLMFilterExtractionResponse :=
  match response.filters.service_types with
  | none => response
  | some types =>
    let mappedTypes := types.filterMap correctServiceType
    let deduped := jsDedup mappedTypes
    let f1 := { response.filters with service_types := some deduped }
    let f2 :=
      if deduped.length = 0 ∧ originalQuery ≠ "" then
        { f1 with keywords := some originalQuery }
      else f1
    { response with filters := f2 }

/-- Case-insensitive-ready substring test: `haystack.includes(needle)` on
already-lowercased text. -/
def jsIncludes (haystack needle : String) : Bool :=
  decide (needle.toList <:+: haystack.toList)

/-- Embedding of `createBasicFilters` from the extract-filters route: the
deterministic keyword fallback. -/
def createBasicFilters (query : String) : LLMFilterExtractionResponse :=
  let queryLower := query.toLower
  let inc := fun (t : String) => jsIncludes queryLower t
  let care_phase : Option CarePhase :=
    if inc "emergency" || inc "suicide" || inc "immediate" || inc "crisis" then
      some CarePhase.immediate_crisis
    else if inc "acute" || inc "urgent" || inc "recent" then
      some CarePhase.acute_support
    else if inc "recovery" || inc "rehabilitation" || inc "ongoing" then
      some CarePhase.recovery_support
    else if inc "maintenance" || inc "preventive" || inc "wellness" then
      some CarePhase.maintenance
    else none
  let gender_specific : Option Gender :=
    if inc "women" || inc "female" || inc "girls" then some Gender.female
    else if inc "men" || inc "male" || inc "boys" then some Gender.male
    else none
  let has_crisis_services := inc "crisis" || inc "emergency" || inc "hotline"
  let walk_ins_accepted := inc "walk-in" || inc "walk in" || inc "drop-in" ||
    inc "drop in" || inc "no appointment" || inc "without appointment"
  let referral_required := inc "referral" || inc "referred" ||
    inc "recommendation" || inc "by referral"
  let explanationParts : List String :=
    ["Searching for resources related to: \"" ++ query ++ "\"."] ++
    (match care_phase with
     | some cp => ["Identified care phase: " ++ cp.render ++ "."]
     | none => []) ++
    (match gender_specific with
     | some g => ["Filtering for " ++ g.render ++ "-specific services."]
     | none => []) ++
    (if has_crisis_services then ["Prioritizing crisis services."] else []) ++
    (if walk_ins_accepted then ["Showing walk-in accessible facilities."] else []) ++
    (if referral_required then ["Showing referral-based services."] else []) ++
    ["(Using basic keyword matching - LLM services unavailable)"]
  { originalQuery := query
    filters :=
      { keywords := some query
        care_phase := care_phase
        -- `has_crisis_services || undefined`: false becomes undefined
        has_crisis_services := if has_crisis_services then some true else none
        gender_specific := gender_specific
        walk_ins_accepted := if walk_ins_accepted then some true else none
        referral_required := if referral_required then some true else none
        urgentAccessOnly := some (inc "urgent" || inc "crisis" || inc "emergency" ||
          inc "now" || inc "immediate")
        max_distance_km := some (jsNat 25) }
    explanation := String.intercalate " " explanationParts
    confidence := jsNumLit "0.3"
    metadata :=
      { provider := "fallback"
        model := "keyword-matching"
        tokens := { input := query.length, output := 50 } } }

/-! ## Provider adapters and orchestration (`llm-fallback.ts` plus the route) -/

/-- Which provider credentials are configured (presence of `OPENAI_API_KEY` /
`ANTHROPIC_API_KEY`). -/
structure LLMConfig where
  openaiKey : Bool
  anthropicKey : Bool
deriving Repr, DecidableEq

/-- The JSON object an LLM provider call parses out of the model reply
(`parsed.filters` and friends may each be absent). -/
structure ParsedLLM where
  filters : Option CanonicalSearchFilters
  explanation : Option String
  confidence : Option JSNumber
deriving Repr, DecidableEq

/-- Token usage reported by the provider SDK (after the source's `|| 0`
defaults). -/
structure ProviderUsage where
  input : Nat
  output : Nat
deriving Repr, DecidableEq

/-- One provider call's externally determined behaviour: a thrown error
(network failure, quota, empty content, `JSON.parse` failure on malformed
output, non-text content, ...) or the parsed reply with its usage. -/
def ProviderBehavior : Type := Except String (ParsedLLM × ProviderUsage)

/-- Assembly of the success `LLMFilterExtractionResponse` shared by both
adapters: `parsed.filters || {}`, `parsed.explanation || default` (the empty
string is falsy), `parsed.confidence || 0.7` (the number 0 is falsy). -/
def providerResult (providerName modelName query : String)
    (parsed : ParsedLLM) (usage : ProviderUsage) : LLMFilterExtractionResponse :=
  { originalQuery := query
    filters := parsed.filters.getD {}
    explanation :=
      match parsed.explanation with
      | some e => if e = "" then "Extracted filters from: \"" ++ query ++ "\"" else e
      | none => "Extracted filters from: \"" ++ query ++ "\""
    confidence :=
      match parsed.confidence with
      | some c => if c.truthy then c else jsNumLit "0.7"
      | none => jsNumLit "0.7"
    metadata :=
      { provider := providerName
        model := modelName
        tokens := { input := usage.input, output := usage.output } } }

/-- Embedding of `OpenAIProvider.extract`: throws when the key is missing,
otherwise the behaviour decides; a success is stamped `provider: "openai"`. -/
def openaiExtract (cfg : LLMConfig) (beh : ProviderBehavior) (query : String) :
    Except String LLMFilterExtractionResponse :=
  if cfg.openaiKey = false then Except.error "OPENAI_API_KEY not configured"
  else
    match beh with
    | Except.error e => Except.error e
    | Except.ok (parsed, usage) =>
      Except.ok (providerResult "openai" "gpt-4-turbo-preview" query parsed usage)

/-- Embedding of `AnthropicProvider.extract`. -/
def anthropicExtract (cfg : LLMConfig) (beh : ProviderBehavior) (query : String) :
    Except String LLMFilterExtractionResponse :=
  if cfg.anthropicKey = false then Except.error "ANTHROPIC_API_KEY not configured"
  else
    match beh with
    | Except.error e => Except.error e
    | Except.ok (parsed, usage) =>
      Except.ok (providerResult "anthropic" "claude-3-5-sonnet-20241022" query parsed usage)

/-- Embedding of `extractFiltersWithFallback` (llm-fallback.ts): filter the
provider list `[OpenAI, Anthropic]` by configured keys; throw if none remain;
otherwise try them in order, returning the first success, else rethrowing the
last error. -/
def extractFiltersWithFallback (cfg : LLMConfig)
    (openaiBeh anthropicBeh : ProviderBehavior) (query : String) :
    Except String LLMFilterExtractionResponse :=
  if cfg.openaiKey = false ∧ cfg.anthropicKey = false then
    Except.error "No LLM providers configured (missing API keys)"
  else if cfg.openaiKey then
    match openaiExtract cfg openaiBeh query with
    | Except.ok r => Except.ok r
    | Except.error e1 =>
      if cfg.anthropicKey then
        match anthropicExtract cfg anthropicBeh query with
        | Except.ok r => Except.ok r
        | Except.error e2 => Except.error e2
      else Except.error e1
  else
    match anthropicExtract cfg anthropicBeh query with
    | Except.ok r => Except.ok r
    | Except.error e => Except.error e

/-- Model of `String.prototype.trim()`: drop whitespace from both ends
(kept executable over the character list). -/
def jsTrim (s : String) : String :=
  String.mk (((s.toList.dropWhile Char.isWhitespace).reverse.dropWhile
    Char.isWhitespace).reverse)

/-- Result of the `POST /api/llm/extract-filters` handler: a 400 input
rejection or a 200 with the (validated) extraction result.  The backend-LLM
path is commented out in the source, so it does not appear here. -/
inductive ExtractPostResult where
  | badRequest (error : String)
  | ok (response : LLMFilterExtractionResponse)
deriving Repr, DecidableEq

/-- Embedding of the `POST /api/llm/extract-filters` handler body (after the
request JSON has been read): empty-after-trim queries are rejected with 400;
otherwise the provider orchestration runs and any thrown error is recovered by
the keyword fallback.  Both branches validate before responding. -/
def extractFiltersPOST (cfg : LLMConfig)
    (openaiBeh anthropicBeh : ProviderBehavior) (query : String) : ExtractPostResult :=
  if query = "" ∨ (jsTrim query).length = 0 then
    ExtractPostResult.badRequest "Query is required"
  else
    match extractFiltersWithFallback cfg openaiBeh anthropicBeh query with
    | Except.ok r => ExtractPostResult.ok (validateExtractedFilters r query)
    | Except.error _ =>
      ExtractPostResult.ok (validateExtractedFilters (createBasicFilters query) query)

/-! ## FilterUtils URL serialization (types/search.ts)

`FilterUtils.toURLParams` iterates `Object.entries(filters)`; the embedding
takes that entries view directly: a list of key/value pairs (a JS object has
distinct keys, which theorems state as a `Nodup` hypothesis).  Values are
`JSValue`s; absent (`undefined`) fields simply do not occur in the list. -/

/-- A JavaScript value as seen by the URL serializer and parser. -/
inductive JSValue where
  | str (s : String)
  | num (n : JSNumber)
  | bool (b : Bool)
  | null
  | arr (elems : List JSValue)
  | obj (fields : List (String × JSValue))

/-- The characters `{` and `}`. -/
def lbraceChar : Char := Char.ofNat 123

/-- The closing brace character. -/
def rbraceChar : Char := Char.ofNat 125

mutual

/-- JS `String(v)`: identity on strings, number/boolean rendering,
`"null"`, arrays joined with commas (`Array.prototype.toString`), plain
objects as `"[object Object]"`. -/
def jsToString : JSValue → String
  | JSValue.str s => s
  | JSValue.num n => n.repr
  | JSValue.bool b => boolRender b
  | JSValue.null => "null"
  | JSValue.obj _ => "[object Object]"
  | JSValue.arr vs => String.intercalate "," (jsJoinElems vs)

/-- Element strings of `Array.prototype.join(",")`: `null` renders empty
inside a join, every other element via `String(v)`. -/
def jsJoinElems : List JSValue → List String
  | [] => []
  | JSValue.null :: rest => "" :: jsJoinElems rest
  | v :: rest => jsToString v :: jsJoinElems rest

end

/-- Escaping of `"` and `\` inside a JSON string literal. -/
def jsonEscape (s : String) : String :=
  String.join (s.toList.map (fun c =>
    if c = '"' then "\\\""
    else if c = '\\' then "\\\\"
    else String.mk [c]))

mutual

/-- JS `JSON.stringify` on the values above (no `undefined` exists here, so
no field dropping occurs). -/
def jsonStringify : JSValue → String
  | JSValue.str s => "\"" ++ jsonEscape s ++ "\""
  | JSValue.num n => n.repr
  | JSValue.bool b => boolRender b
  | JSValue.null => "null"
  | JSValue.arr vs => "[" ++ String.intercalate "," (jsonStringifyList vs) ++ "]"
  | JSValue.obj fs => "\x7b" ++ String.intercalate "," (jsonStringifyFields fs) ++ "\x7d"

/-- Stringification of array elements. -/
def jsonStringifyList : List JSValue → List String
  | [] => []
  | v :: rest => jsonStringify v :: jsonStringifyList rest

/-- Stringification of object fields. -/
def jsonStringifyFields : List (String × JSValue) → List String
  | [] => []
  | (k, v) :: rest => ("\"" ++ jsonEscape k ++ "\":" ++ jsonStringify v) :: jsonStringifyFields rest

end

/-- Skip JSON whitespace. -/
def skipWs : List Char → List Char
  | c :: rest =>
    if c = ' ' || c = '\t' || c = '\n' || c = '\r' then skipWs rest else c :: rest
  | [] => []

/-- Longest leading run of decimal digits. -/
def spanDigits : List Char → List Char × List Char
  | [] => ([], [])
  | c :: rest =>
    if c.isDigit then
      let p := spanDigits rest
      (c :: p.1, p.2)
    else ([], c :: rest)

/-- Decimal number literal: optional minus, digits, optional fraction.  This
is the literal subset shared by JSON numbers and the query strings the filter
panel produces; exotic `Number()` inputs (hex, exponents, `Infinity`) are
conservatively treated as unparsable. -/
def parseNumLit (cs : List Char) : Option (String × List Char) :=
  let signed : Bool × List Char :=
    match cs with
    | '-' :: r => (true, r)
    | _ => (false, cs)
  match spanDigits signed.2 with
  | ([], _) => none
  | (ds, rest1) =>
    match rest1 with
    | '.' :: r =>
      match spanDigits r with
      | ([], _) => none
      | (fs, rest2) =>
        some ((if signed.1 then "-" else "") ++ String.mk ds ++ "." ++ String.mk fs, rest2)
    | _ => some ((if signed.1 then "-" else "") ++ String.mk ds, rest1)

/-- Truthiness of a parsed numeric literal: false exactly when its value is
zero, i.e. when no nonzero digit occurs. -/
def numLitTruthy (r : String) : Bool :=
  r.toList.any (fun c => c.isDigit && c ≠ '0')

/-- Model of JS `Number(s)`: trimmed empty string is `0`; otherwise the whole
trimmed string must be a decimal literal, else the result is `NaN` (`none`). -/
def jsNumberOfString (s : String) : Option JSNumber :=
  let cs := skipWs s.toList
  if cs.isEmpty then some ⟨"0", false, true⟩
  else
    match parseNumLit cs with
    | some (r, rest) =>
      if (skipWs rest).isEmpty then some ⟨r, numLitTruthy r, true⟩ else none
    | none => none

/-- Consume an exact token. -/
def stripToken : List Char → List Char → Option (List Char)
  | [], rest => some rest
  | _ :: _, [] => none
  | t :: ts, c :: rest => if c = t then stripToken ts rest else none

/-- JSON string body after the opening quote, with `\"`, `\\` and the common
letter escapes. -/
def parseJsonString : List Char → Option (String × List Char)
  | [] => none
  | '"' :: rest => some ("", rest)
  | '\\' :: e :: rest2 =>
    let ec := if e = 'n' then '\n' else if e = 't' then '\t' else if e = 'r' then '\r' else e
    (parseJsonString rest2).map (fun p => (String.mk (ec :: p.1.toList), p.2))
  | '\\' :: [] => none
  | c :: rest => (parseJsonString rest).map (fun p => (String.mk (c :: p.1.toList), p.2))

mutual

/-- Fueled JSON value parser (model of `JSON.parse`; a parse failure is the
thrown `SyntaxError`). -/
def parseJsonVal : Nat → List Char → Option (JSValue × List Char)
  | 0, _ => none
  | Nat.succ fuel, cs =>
    match skipWs cs with
    | [] => none
    | c :: rest =>
      if c = lbraceChar then
        match skipWs rest with
        | c2 :: rest2 =>
          if c2 = rbraceChar then some (JSValue.obj [], rest2)
          else parseJsonObjFields fuel (c2 :: rest2) []
        | [] => none
      else if c = '[' then
        match skipWs rest with
        | c2 :: rest2 =>
          if c2 = ']' then some (JSValue.arr [], rest2)
          else parseJsonArrElems fuel (c2 :: rest2) []
        | [] => none
      else if c = '"' then
        (parseJsonString rest).map (fun p => (JSValue.str p.1, p.2))
      else
        match stripToken ['t', 'r', 'u', 'e'] (c :: rest) with
        | some r => some (JSValue.bool true, r)
        | none =>
          match stripToken ['f', 'a', 'l', 's', 'e'] (c :: rest) with
          | some r => some (JSValue.bool false, r)
          | none =>
            match stripToken ['n', 'u', 'l', 'l'] (c :: rest) with
            | some r => some (JSValue.null, r)
            | none =>
              match parseNumLit (c :: rest) with
              | some p => some (JSValue.num ⟨p.1, numLitTruthy p.1, true⟩, p.2)
              | none => none

/-- Comma-separated array elements up to `]`. -/
def parseJsonArrElems : Nat → List Char → List JSValue → Option (JSValue × List Char)
  | 0, _, _ => none
  | Nat.succ fuel, cs, acc =>
    match parseJsonVal fuel cs with
    | none => none
    | some (v, rest) =>
      match skipWs rest with
      | ',' :: rest2 => parseJsonArrElems fuel rest2 (acc ++ [v])
      | ']' :: rest2 => some (JSValue.arr (acc ++ [v]), rest2)
      | _ => none

/-- Comma-separated object fields up to the closing brace. -/
def parseJsonObjFields : Nat → List Char → List (String × JSValue) →
    Option (JSValue × List Char)
  | 0, _, _ => none
  | Nat.succ fuel, cs, acc =>
    match skipWs cs with
    | '"' :: rest =>
      match parseJsonString rest with
      | none => none
      | some (k, rest2) =>
        match skipWs rest2 with
        | ':' :: rest3 =>
          match parseJsonVal fuel rest3 with
          | none => none
          | some (v, rest4) =>
            match skipWs rest4 with
            | ',' :: rest5 => parseJsonObjFields fuel rest5 (acc ++ [(k, v)])
            | c :: rest5 =>
              if c = rbraceChar then some (JSValue.obj (acc ++ [(k, v)]), rest5)
              else none
            | [] => none
        | _ => none
    | _ => none

end

/-- JSON.parse of a whole string: the parse must consume everything but
trailing whitespace. -/
def jsonParseStr (s : String) : Option JSValue :=
  match parseJsonVal (s.length + 2) s.toList with
  | some (v, rest) => if (skipWs rest).isEmpty then some v else none
  | none => none

/-- Model of `String.prototype.startsWith`, kept kernel-executable. -/
def jsStartsWith (s pre : String) : Bool :=
  (stripToken pre.toList s.toList).isSome

/-- The scalar re-parse chain of `FilterUtils.fromURLParams`: JSON-looking
strings via `JSON.parse` (falling back to the raw string on a parse error),
then boolean-looking, then numeric-looking, else the string itself. -/
def parseScalar (value : String) : JSValue :=
  if jsStartsWith value "\x7b" || jsStartsWith value "[" then
    match jsonParseStr value with
    | some v => v
    | none => JSValue.str value
  else if value = "true" then JSValue.bool true
  else if value = "false" then JSValue.bool false
  else
    match jsNumberOfString value with
    | some n => JSValue.num n
    | none => JSValue.str value

/-- Model of `URLSearchParams.append`. -/
def uspAppend (params : List (String × String)) (k v : String) :
    List (String × String) :=
  params ++ [(k, v)]

/-- Model of `URLSearchParams.set`: replace the first entry with this key, delete the
other entries with it; append if the key is absent. -/
def uspSet : List (String × String) → String → String → List (String × String)
  | [], k, v => [(k, v)]
  | p :: rest, k, v =>
    if p.1 = k then (k, v) :: rest.filter (fun q => q.1 != k)
    else p :: uspSet rest k v

/-- All values recorded for a key, in order (`URLSearchParams.getAll`). -/
def getAllVals (params : List (String × String)) (k : String) : List String :=
  (params.filter (fun p => p.1 == k)).map (fun p => p.2)

/-- JS object property assignment `o[k] = v` on an insertion-ordered object:
overwrite in place if the key exists, else append. -/
def objAssign (o : List (String × JSValue)) (k : String) (v : JSValue) :
    List (String × JSValue) :=
  if o.any (fun p => p.1 == k) then
    o.map (fun p => if p.1 == k then (k, v) else p)
  else o ++ [(k, v)]

namespace FilterUtils

/-- Embedding of `FilterUtils.toURLParams`: fold over `Object.entries(filters)`
skipping `undefined`/`null` values, `append`ing each array element, `set`ting
JSON text for objects and `String(value)` for the rest. -/
def toURLParams (entries : List (String × JSValue)) : List (String × String) :=
  entries.foldl (fun params kv =>
    match kv.2 with
    | JSValue.null => params
    | JSValue.arr vs => vs.foldl (fun ps el => uspAppend ps kv.1 (jsToString el)) params
    | JSValue.obj fs => uspSet params kv.1 (jsonStringify (JSValue.obj fs))
    | v => uspSet params kv.1 (jsToString v)) []

/-- Embedding of `FilterUtils.fromURLParams`: `params.forEach` assigns, for
each visited pair, either the full `getAll` array (when the key occurs more
than once) or the scalar re-parse of the visited value. -/
def fromURLParams (params : List (String × String)) : List (String × JSValue) :=
  params.foldl (fun filters kv =>
    objAssign filters kv.1
      (if (getAllVals params kv.1).length > 1 then
        JSValue.arr ((getAllVals params kv.1).map JSValue.str)
      else parseScalar kv.2)) []

end FilterUtils

/-! ## Concrete inputs used by the theorems below -/

/-- Filters whose coordinates were deserialized to `NaN` latitude (e.g.
`Number("abc")`) with a finite longitude. -/
def nanCoordFilters : CanonicalSearchFilters :=
  { location := some
      { address := "Denver, CO"
        coordinates := some ⟨JSCoordVal.num jsNaN, JSCoordVal.num (jsNumLit "-104.9")⟩ } }

/-- Filters with finite coordinates 39.7, -104.99. -/
def finiteCoordFilters : CanonicalSearchFilters :=
  { location := some
      { address := "Denver, CO"
        coordinates := some
          ⟨JSCoordVal.num (jsNumLit "39.7"), JSCoordVal.num (jsNumLit "-104.99")⟩ } }

/-- An endpoint that answers 400 on every attempt. -/
def always400 : Nat → FetchResult := fun _ => FetchResult.httpStatus 400 "Bad Request"

/-- An endpoint that answers 503 on every attempt. -/
def always503 : Nat → FetchResult := fun _ => FetchResult.httpStatus 503 "Service Unavailable"

/-- An endpoint that answers 404 on every attempt. -/
def always404 : Nat → FetchResult := fun _ => FetchResult.httpStatus 404 "Not Found"

/-- An endpoint that answers 401 on every attempt. -/
def always401 : Nat → FetchResult := fun _ => FetchResult.httpStatus 401 "Unauthorized"

/-- The `statusCode` of the `BackendAPIError` thrown by a client call
(`none` when the call succeeded). -/
def raisedStatusCode : Except BackendAPIError Unit → Option Nat
  | Except.ok _ => none
  | Except.error e => e.statusCode

/-- A syntactically valid lowercase UUID. -/
def validResourceId : String := "123e4567-e89b-12d3-a456-426614174000"

/-- Whether a `JSValue` is an array. -/
def isArr : JSValue → Bool
  | JSValue.arr _ => true
  | _ => false

/-- The URL entries one filter entry contributes (derived closed form of the
`toURLParams` fold body, used to state its specification). -/
def entryBlock (k : String) : JSValue → List (String × String)
  | JSValue.null => []
  | JSValue.arr vs => vs.map (fun el => (k, jsToString el))
  | JSValue.obj fs => [(k, jsonStringify (JSValue.obj fs))]
  | v => [(k, jsToString v)]

/-- Concatenation of the per-entry URL blocks. -/
def blocksOf : List (String × JSValue) → List (String × String)
  | [] => []
  | kv :: rest => entryBlock kv.1 kv.2 ++ blocksOf rest

/-- A filters object whose only field is a singleton `service_types` array
holding the string `"988"` (a code natural-language models emit for crisis
lines). -/
def entries988 : List (String × JSValue) :=
  [("service_types", JSValue.arr [JSValue.str "988"])]

/-- A sample extraction result carrying the given `service_types` and nothing
else, as an LLM provider might return it. -/
def sampleResponse (st : Option (List STElem)) : LLMFilterExtractionResponse :=
  { originalQuery := "help"
    filters := { service_types := st }
    explanation := "sample"
    confidence := jsNumLit "0.5"
    metadata := { provider := "openai", model := "gpt-4-turbo-preview", tokens := ⟨10, 10⟩ } }

/-! # Theorems -/

/-! ## Validator lemmas -/

theorem assocFind_mem {α : Type} (k : String) (v : α) :
    ∀ (l : List (String × α)), assocFind k l = some v → (k, v) ∈ l
  | [], h => by simp [assocFind] at h
  | (a, b) :: rest, h => by
    by_cases hp : a = k
    · rw [assocFind] at h
      simp only [hp, if_pos rfl] at h
      cases h
      subst hp
      exact List.mem_cons_self _ _
    · rw [assocFind] at h
      simp only [if_neg hp] at h
      exact List.mem_cons_of_mem _ (assocFind_mem k v rest h)

theorem alias_targets_valid :
    ∀ p ∈ SERVICE_TYPE_ALIASES, VALID_SERVICE_TYPES.contains p.2 = true := by decide

/-- A correction that yields a plain string yields a canonical vocabulary
code: kept elements are vocabulary members, and every declared alias value is
one too; the only non-string corrections are inherited prototype members. -/
theorem correct_str_valid {t : STElem} {s : String}
    (h : correctServiceType t = some (STElem.str s)) :
    VALID_SERVICE_TYPES.contains s = true := by
  rw [correctServiceType] at h
  split at h
  · rename_i hv
    cases h
    exact hv
  · rw [aliasGet] at h
    cases hfind : assocFind (stElemToString t) SERVICE_TYPE_ALIASES with
    | some v =>
      rw [hfind] at h
      cases h
      exact alias_targets_valid (stElemToString t, s)
        (assocFind_mem (stElemToString t) s SERVICE_TYPE_ALIASES hfind)
    | none =>
      rw [hfind] at h
      have h' : (if objectProtoKeys.contains (stElemToString t) then
          some (STElem.protoMember (stElemToString t)) else none) =
          some (STElem.str s) := h
      split at h'
      · exact STElem.noConfusion (Option.some.inj h')
      · exact Option.noConfusion h'

/-- A canonical string code is a fixed point of the correction. -/
theorem correct_of_valid_str {s : String}
    (h : VALID_SERVICE_TYPES.contains s = true) :
    correctServiceType (STElem.str s) = some (STElem.str s) := by
  rw [correctServiceType, if_pos (show validHas (STElem.str s) = true from h)]

theorem mem_jsDedupAux {α : Type} [DecidableEq α] {x : α} :
    ∀ (l seen : List α), x ∈ jsDedupAux l seen → x ∈ l ∧ x ∉ seen
  | [], _, h => by simp [jsDedupAux] at h
  | a :: rest, seen, h => by
    rw [jsDedupAux] at h
    split at h
    · have := mem_jsDedupAux rest seen h
      exact ⟨List.mem_cons_of_mem _ this.1, this.2⟩
    · rename_i hna
      rcases List.mem_cons.1 h with hxa | hx
      · exact ⟨by rw [hxa]; exact List.mem_cons_self _ _, by rw [hxa]; exact hna⟩
      · have := mem_jsDedupAux rest (a :: seen) hx
        exact ⟨List.mem_cons_of_mem _ this.1,
          fun hs => this.2 (List.mem_cons_of_mem _ hs)⟩

theorem jsDedupAux_nodup {α : Type} [DecidableEq α] :
    ∀ (l seen : List α), (jsDedupAux l seen).Nodup
  | [], _ => by simp [jsDedupAux]
  | a :: rest, seen => by
    rw [jsDedupAux]
    split
    · exact jsDedupAux_nodup rest seen
    · refine List.nodup_cons.2 ⟨fun hmem => ?_, jsDedupAux_nodup rest (a :: seen)⟩
      exact (mem_jsDedupAux rest (a :: seen) hmem).2 (List.mem_cons_self _ _)

theorem jsDedupAux_eq_self {α : Type} [DecidableEq α] :
    ∀ (l seen : List α), l.Nodup → (∀ x ∈ l, x ∉ seen) → jsDedupAux l seen = l
  | [], _, _, _ => rfl
  | a :: rest, seen, hnd, hdisj => by
    rw [jsDedupAux, if_neg (hdisj a (List.mem_cons_self _ _))]
    have hnd' := List.nodup_cons.1 hnd
    rw [jsDedupAux_eq_self rest (a :: seen) hnd'.2]
    intro x hx
    intro hmem
    rcases List.mem_cons.1 hmem with hxa | hxs
    · exact hnd'.1 (hxa ▸ hx)
    · exact hdisj x (List.mem_cons_of_mem _ hx) hxs

theorem mem_jsDedup {α : Type} [DecidableEq α] {x : α} {l : List α}
    (h : x ∈ jsDedup l) : x ∈ l :=
  (mem_jsDedupAux l [] h).1

theorem jsDedup_nodup {α : Type} [DecidableEq α] (l : List α) : (jsDedup l).Nodup :=
  jsDedupAux_nodup l []

theorem jsDedup_of_nodup {α : Type} [DecidableEq α] {l : List α} (h : l.Nodup) :
    jsDedup l = l :=
  jsDedupAux_eq_self l [] h (fun x _ hx => by simp at hx)

theorem jsDedup_idem {α : Type} [DecidableEq α] (l : List α) :
    jsDedup (jsDedup l) = jsDedup l :=
  jsDedup_of_nodup (jsDedup_nodup l)

theorem filterMap_id_of_mem {α : Type} (f : α → Option α) :
    ∀ (l : List α), (∀ x ∈ l, f x = some x) → l.filterMap f = l
  | [], _ => rfl
  | a :: rest, h => by
    rw [List.filterMap_cons, h a (List.mem_cons_self _ _),
      filterMap_id_of_mem f rest (fun x hx => h x (List.mem_cons_of_mem _ hx))]

/-- A string element surviving the validator's correction pass is a canonical
vocabulary code and hence a fixed point of the correction.  (Inherited
prototype members also survive the pass, but are not fixed points: their
property key finds nothing and they get dropped on a second pass.) -/
theorem mem_corrected_fixed {types : List STElem} {x : STElem}
    (h : x ∈ jsDedup (types.filterMap correctServiceType))
    (hstr : ∃ s, x = STElem.str s) :
    correctServiceType x = some x := by
  rcases hstr with ⟨s, rfl⟩
  rcases List.mem_filterMap.1 (mem_jsDedup h) with ⟨a, _, ha⟩
  exact correct_of_valid_str (correct_str_valid ha)

/-- The validator leaves a response without a `service_types` field untouched
(the `if (response.filters?.service_types)` guard). -/
theorem validate_of_service_types_none {r : LLMFilterExtractionResponse}
    {q : String} (h : r.filters.service_types = none) :
    validateExtractedFilters r q = r := by
  rw [validateExtractedFilters, h]

/-- The validator never changes the metadata of a response. -/
theorem validate_metadata {r : LLMFilterExtractionResponse} (q : String) :
    (validateExtractedFilters r q).metadata = r.metadata := by
  rw [validateExtractedFilters]
  cases r.filters.service_types <;> simp

/-! ## C5, C6, C9 -/

/-- C6.  The claim says every value that is neither canonical nor a declared
alias is discarded.  The program's alias substitution is the property read
`SERVICE_TYPE_ALIASES[type]` on a bare object literal, which falls through to
the prototype chain: for `type = "toString"` it yields the inherited — and
truthy — `Object.prototype.toString` function, which the program pushes into
the corrected list instead of discarding the string (contradicting the
`Record<string, string>` annotation of the table, the branch's own
`// Invalid and no mapping` comment and the spec's "dropped, never silently
forwarded" invariant).  The benign concrete half of the claim does hold:
`["crisis_hotline", "bogus_code"]` still validates to `["crisis_line"]`. -/
theorem validate_prototype_key_forwarded :
    (validateExtractedFilters (sampleResponse (some [STElem.str "toString"]))
        "help").filters.service_types = some [STElem.protoMember "toString"] ∧
    VALID_SERVICE_TYPES.contains "toString" = false ∧
    assocFind "toString" SERVICE_TYPE_ALIASES = none ∧
    STElem.protoMember "toString" ≠ STElem.str "toString" ∧
    (validateExtractedFilters (sampleResponse
        (some [STElem.str "crisis_hotline", STElem.str "bogus_code"]))
        "crisis help").filters.service_types = some [STElem.str "crisis_line"] := by
  refine ⟨rfl, by decide, by decide, ?_, rfl⟩
  intro h
  exact STElem.noConfusion h

/-- C5 (amended).  When the `service_types` field is present and correction
empties it, and the original query is nonempty, the validator restores
`filters.keywords = originalQuery` (and leaves the emptied list in place). -/
theorem validate_empty_correction_restores_keywords (r : LLMFilterExtractionResponse)
    (q : String) (types : List STElem) (hst : r.filters.service_types = some types)
    (hempty : types.filterMap correctServiceType = []) (hq : q ≠ "") :
    (validateExtractedFilters r q).filters.keywords = some q ∧
    (validateExtractedFilters r q).filters.service_types = some [] := by
  rw [validateExtractedFilters, hst]
  simp only [hempty]
  rw [if_pos ⟨rfl, hq⟩]
  exact ⟨rfl, rfl⟩

/-- Witness for the amended C5 at a concrete response. -/
theorem validate_empty_correction_restores_keywords_witness :
    (validateExtractedFilters (sampleResponse (some [STElem.str "bogus_code"]))
        "help").filters.keywords = some "help" ∧
    (validateExtractedFilters (sampleResponse (some [STElem.str "bogus_code"]))
        "help").filters.service_types = some [] :=
  validate_empty_correction_restores_keywords
    (sampleResponse (some [STElem.str "bogus_code"]))
    "help" [STElem.str "bogus_code"] rfl rfl (by decide)

/-- C5 counterexample.  When no `service_types` were extracted at all (the
field is absent rather than an empty list), the restoration never runs: for a
response with neither keywords nor service types and the nonempty query
`"help"`, the post-validation filters still have neither. -/
theorem validate_absent_service_types_keeps_keywords_unset :
    (validateExtractedFilters (sampleResponse none) "help").filters.keywords = none ∧
    (validateExtractedFilters (sampleResponse none) "help").filters.service_types = none ∧
    ("help" : String) ≠ "" :=
  ⟨rfl, rfl, by decide⟩

/-- Explicit form of one validation pass when the `service_types` field is
present. -/
theorem validate_eq_of_some {r : LLMFilterExtractionResponse} {q : String}
    {types : List STElem} (hst : r.filters.service_types = some types) :
    validateExtractedFilters r q =
      { r with filters :=
          if (jsDedup (types.filterMap correctServiceType)).length = 0 ∧ q ≠ "" then
            { r.filters with
                service_types := some (jsDedup (types.filterMap correctServiceType))
                keywords := some q }
          else
            { r.filters with
                service_types := some (jsDedup (types.filterMap correctServiceType)) } } := by
  rw [validateExtractedFilters, hst]

/-- C9 counterexample.  Idempotence fails at `service_types = ["toString"]`,
query `"help"`: the first pass "maps" the string to the inherited — truthy —
`Object.prototype.toString` function and keeps it; the second pass coerces
that function to a property key that matches nothing, drops it, and, the list
now being empty, restores `keywords` to the query.  The two passes differ. -/
theorem validate_not_idempotent_on_proto_key :
    validateExtractedFilters (validateExtractedFilters
        (sampleResponse (some [STElem.str "toString"])) "help") "help" ≠
      validateExtractedFilters (sampleResponse (some [STElem.str "toString"])) "help" ∧
    (validateExtractedFilters (validateExtractedFilters
        (sampleResponse (some [STElem.str "toString"])) "help") "help").filters.keywords =
      some "help" ∧
    (validateExtractedFilters
        (sampleResponse (some [STElem.str "toString"])) "help").filters.keywords = none ∧
    (validateExtractedFilters (validateExtractedFilters
        (sampleResponse (some [STElem.str "toString"])) "help") "help").filters.service_types =
      some [] ∧
    (validateExtractedFilters
        (sampleResponse (some [STElem.str "toString"])) "help").filters.service_types =
      some [STElem.protoMember "toString"] :=
  ⟨by decide, rfl, rfl, rfl, rfl⟩

/-- C9 (amended).  The validator is idempotent on every response whose
`service_types` correction yields only genuine strings — that is, no element
collides with an inherited `Object.prototype` property name (the caveat the
counterexample forces).  Every surviving code is then canonical, so the second
per-element pass is the identity, the list is already de-duplicated, and the
keyword-restoration condition evaluates identically. -/
theorem validate_idempotent_without_proto_keys (r : LLMFilterExtractionResponse)
    (q : String)
    (h : ∀ types, r.filters.service_types = some types →
      ∀ x ∈ types.filterMap correctServiceType, ∃ s, x = STElem.str s) :
    validateExtractedFilters (validateExtractedFilters r q) q =
      validateExtractedFilters r q := by
  cases hst : r.filters.service_types with
  | none =>
    rw [validate_of_service_types_none hst, validate_of_service_types_none hst]
  | some types =>
    have hmap : (jsDedup (types.filterMap correctServiceType)).filterMap correctServiceType =
        jsDedup (types.filterMap correctServiceType) :=
      filterMap_id_of_mem correctServiceType _
        (fun x hx => mem_corrected_fixed hx (h types hst x (mem_jsDedup hx)))
    have hded : jsDedup (jsDedup (types.filterMap correctServiceType)) =
        jsDedup (types.filterMap correctServiceType) := jsDedup_idem _
    rw [validate_eq_of_some hst]
    by_cases hcond : (jsDedup (types.filterMap correctServiceType)).length = 0 ∧ q ≠ ""
    · rw [if_pos hcond]
      rw [validate_eq_of_some rfl]
      simp only [hmap, hded]
      rw [if_pos hcond]
    · rw [if_neg hcond]
      rw [validate_eq_of_some rfl]
      simp only [hmap, hded]
      rw [if_neg hcond]

/-- Witness for the amended C9: a concrete alias-plus-junk response with no
prototype-key collision. -/
theorem validate_idempotent_without_proto_keys_witness :
    validateExtractedFilters (validateExtractedFilters
        (sampleResponse (some [STElem.str "crisis_hotline", STElem.str "bogus_code"]))
        "crisis help") "crisis help" =
      validateExtractedFilters
        (sampleResponse (some [STElem.str "crisis_hotline", STElem.str "bogus_code"]))
        "crisis help" :=
  validate_idempotent_without_proto_keys
    (sampleResponse (some [STElem.str "crisis_hotline", STElem.str "bogus_code"]))
    "crisis help"
    (fun types ht => by
      have ht' : some [STElem.str "crisis_hotline", STElem.str "bogus_code"] =
          some types := ht
      cases ht'
      intro x hx
      rw [show List.filterMap correctServiceType
          [STElem.str "crisis_hotline", STElem.str "bogus_code"] =
          [STElem.str "crisis_line"] from rfl] at hx
      rcases List.mem_singleton.1 hx with rfl
      exact ⟨"crisis_line", rfl⟩)

/-- C1.  The spec requires `transformFiltersToBackendParams` to raise an
`InvalidLocationError` whenever a coordinate is not a finite number, and in
particular on `lat = NaN`.  The code guards with `typeof lat === 'number'`,
and `typeof NaN === 'number'` in JavaScript, so the `NaN` input sails through
the guard and the backend params contain `location = "NaN,-104.9"` with no
error; the finite-coordinate half of the claim does hold and yields
`"39.7,-104.99"`. -/
theorem transform_nan_coordinate_not_rejected :
    transformFiltersToBackendParams nanCoordFilters =
      Except.ok [("location", "NaN,-104.9")] ∧
    transformFiltersToBackendParams finiteCoordFilters =
      Except.ok [("location", "39.7,-104.99")] := by
  constructor <;> rfl

/-- C2.  The spec says a non-retryable status (e.g. 400) fails immediately on
the first attempt with a `BackendAPIError` carrying that status code.  In the
code the `throw` for a non-retryable status sits inside the `try`, so its own
`catch` swallows it and retries: an endpoint that always answers 400 is fetched
4 times with full backoff, and the final `BackendAPIError` has
`statusCode = undefined`, not 400. -/
theorem fetch_non_retryable_status_is_retried :
    DEFAULT_RETRY_OPTIONS.retryableStatuses.contains 400 = false ∧
    (fetchWithRetry always400 DEFAULT_RETRY_OPTIONS).attempts = 4 ∧
    (fetchWithRetry always400 DEFAULT_RETRY_OPTIONS).delays = [1000, 2000, 4000] ∧
    (fetchWithRetry always400 DEFAULT_RETRY_OPTIONS).outcome =
      Except.error "HTTP 400: Bad Request" ∧
    BackendClient.searchResources always400 =
      Except.error ⟨"Failed to search resources", none, some "HTTP 400: Bad Request"⟩ := by
  refine ⟨rfl, rfl, rfl, ?_, ?_⟩ <;> rfl

/-- C3 (amended).  A client call against an endpoint that always returns a
retryable status (such as 503) is attempted exactly 4 times (1 + 3 retries)
with exponential backoff `1000 * 2 ^ attempt` ms between attempts, and then
`searchResources` raises a `BackendAPIError` — whose `statusCode` is
`undefined` (the status survives only inside the wrapped error message), not
the numeric 503 the claim states. -/
theorem retry_bound_retryable_status (s : Nat) (st : String)
    (hs : s ∈ DEFAULT_RETRY_OPTIONS.retryableStatuses) :
    (fetchWithRetry (fun _ => FetchResult.httpStatus s st) DEFAULT_RETRY_OPTIONS).attempts = 4 ∧
    (fetchWithRetry (fun _ => FetchResult.httpStatus s st) DEFAULT_RETRY_OPTIONS).delays =
      [1000 * 2 ^ 0, 1000 * 2 ^ 1, 1000 * 2 ^ 2] ∧
    (fetchWithRetry (fun _ => FetchResult.httpStatus s st) DEFAULT_RETRY_OPTIONS).outcome =
      Except.error (httpErrMsg s st) ∧
    BackendClient.searchResources (fun _ => FetchResult.httpStatus s st) =
      Except.error ⟨"Failed to search resources", none, some (httpErrMsg s st)⟩ := by
  fin_cases hs <;> exact ⟨rfl, rfl, rfl, rfl⟩

/-- Witness for the amended C3 theorem at status 503. -/
theorem retry_bound_retryable_status_witness :
    (fetchWithRetry (fun _ => FetchResult.httpStatus 503 "Service Unavailable")
        DEFAULT_RETRY_OPTIONS).attempts = 4 ∧
    (fetchWithRetry (fun _ => FetchResult.httpStatus 503 "Service Unavailable")
        DEFAULT_RETRY_OPTIONS).delays = [1000 * 2 ^ 0, 1000 * 2 ^ 1, 1000 * 2 ^ 2] ∧
    (fetchWithRetry (fun _ => FetchResult.httpStatus 503 "Service Unavailable")
        DEFAULT_RETRY_OPTIONS).outcome =
      Except.error (httpErrMsg 503 "Service Unavailable") ∧
    BackendClient.searchResources (fun _ => FetchResult.httpStatus 503 "Service Unavailable") =
      Except.error ⟨"Failed to search resources", none,
        some (httpErrMsg 503 "Service Unavailable")⟩ :=
  retry_bound_retryable_status 503 "Service Unavailable" (by decide)

/-- C3 counterexample.  Against the always-503 endpoint the raised
`BackendAPIError` has `statusCode = undefined`, so the claim's
`BackendAPIError{statusCode: 503}` is false as stated. -/
theorem searchResources_503_statusCode_is_undefined :
    raisedStatusCode (BackendClient.searchResources always503) = none ∧
    (none : Option Nat) ≠ some 503 := by
  exact ⟨rfl, by decide⟩

/-- C7.  An id failing the UUID regex is answered 400 with no backend call
(the response is the same for every backend behaviour); but on a backend 404
the route answers 500, not 404: `getResourceById` always constructs its
`BackendAPIError` with `statusCode = undefined`, so the route's
`statusCode === 404` branch is dead and `statusCode || 500` yields 500.  The
pass-through of other statuses (e.g. 401) is broken the same way. -/
theorem resourceDetail_route_behaviour :
    (∀ responses, resourceDetailGET "not-a-uuid" responses =
      ⟨400, some "Invalid resource ID format (expected UUID)"⟩) ∧
    uuidRegexTest validResourceId = true ∧
    resourceDetailGET validResourceId always404 = ⟨500, some "Failed to fetch resource"⟩ ∧
    resourceDetailGET validResourceId always401 = ⟨500, some "Failed to fetch resource"⟩ := by
  refine ⟨fun responses => rfl, ?_, ?_, ?_⟩ <;> rfl

/-- C8.  The keyword fallback is a pure total function: `filters.keywords` is
the query verbatim, `filters.max_distance_km` is the fixed default 25, and two
applications to the same query agree (determinism is definitional in the
embedding: `createBasicFilters` reads no state). -/
theorem createBasicFilters_total_keywords_verbatim (q : String) :
    (createBasicFilters q).filters.keywords = some q ∧
    (createBasicFilters q).filters.max_distance_km = some (jsNat 25) ∧
    createBasicFilters q = createBasicFilters q :=
  ⟨rfl, rfl, rfl⟩

/-! ## C4: orchestrator totality -/

theorem string_length_zero {s : String} (h : s.length = 0) : s = "" := by
  cases s with
  | mk data =>
    cases data with
    | nil => rfl
    | cons c cs => simp [String.length] at h

/-- C4.  For every nonempty-after-trim query, every key configuration and
every provider behaviour, the extraction endpoint returns a result (never
throws); the result's `metadata.provider` is `"fallback"` or the name of a
configured provider; and when every configured provider fails (in particular
when none is configured), the result is exactly the keyword fallback with
confidence 0.3 and provider `"fallback"`. -/
theorem extract_orchestration_total (cfg : LLMConfig) (ob ab : ProviderBehavior)
    (q : String) (hq : jsTrim q ≠ "") :
    ∃ r, extractFiltersPOST cfg ob ab q = ExtractPostResult.ok r ∧
      (r.metadata.provider = "fallback" ∨
       (r.metadata.provider = "openai" ∧ cfg.openaiKey = true) ∨
       (r.metadata.provider = "anthropic" ∧ cfg.anthropicKey = true)) ∧
      (((cfg.openaiKey = true → ∃ e, ob = Except.error e) ∧
        (cfg.anthropicKey = true → ∃ e, ab = Except.error e)) →
        r = createBasicFilters q ∧ r.confidence = jsNumLit "0.3" ∧
        r.metadata.provider = "fallback") := by
  have hbasic : validateExtractedFilters (createBasicFilters q) q = createBasicFilters q :=
    validate_of_service_types_none rfl
  have hguard : ¬(q = "" ∨ (jsTrim q).length = 0) := by
    rintro (h1 | h2)
    · exact hq (by rw [h1]; rfl)
    · exact hq (string_length_zero h2)
  rw [extractFiltersPOST, if_neg hguard]
  rcases cfg with ⟨ok, ak⟩
  cases ok <;> cases ak
  · -- no provider configured: straight to the keyword fallback
    exact ⟨createBasicFilters q, congrArg ExtractPostResult.ok hbasic, Or.inl rfl,
      fun _ => ⟨rfl, rfl, rfl⟩⟩
  · -- only Anthropic configured
    cases ab with
    | ok pu =>
      rcases pu with ⟨parsed, usage⟩
      refine ⟨validateExtractedFilters
        (providerResult "anthropic" "claude-3-5-sonnet-20241022" q parsed usage) q, rfl,
        Or.inr (Or.inr ⟨by rw [validate_metadata]; rfl, rfl⟩), fun h => ?_⟩
      rcases h.2 rfl with ⟨e, he⟩
      exact Except.noConfusion he
    | error e =>
      exact ⟨createBasicFilters q, congrArg ExtractPostResult.ok hbasic, Or.inl rfl,
        fun _ => ⟨rfl, rfl, rfl⟩⟩
  · -- only OpenAI configured
    cases ob with
    | ok pu =>
      rcases pu with ⟨parsed, usage⟩
      refine ⟨validateExtractedFilters
        (providerResult "openai" "gpt-4-turbo-preview" q parsed usage) q, rfl,
        Or.inr (Or.inl ⟨by rw [validate_metadata]; rfl, rfl⟩), fun h => ?_⟩
      rcases h.1 rfl with ⟨e, he⟩
      exact Except.noConfusion he
    | error e =>
      exact ⟨createBasicFilters q, congrArg ExtractPostResult.ok hbasic, Or.inl rfl,
        fun _ => ⟨rfl, rfl, rfl⟩⟩
  · -- both configured: first success wins, else keyword fallback
    cases ob with
    | ok pu =>
      rcases pu with ⟨parsed, usage⟩
      refine ⟨validateExtractedFilters
        (providerResult "openai" "gpt-4-turbo-preview" q parsed usage) q, rfl,
        Or.inr (Or.inl ⟨by rw [validate_metadata]; rfl, rfl⟩), fun h => ?_⟩
      rcases h.1 rfl with ⟨e, he⟩
      exact Except.noConfusion he
    | error e1 =>
      cases ab with
      | ok pu =>
        rcases pu with ⟨parsed, usage⟩
        refine ⟨validateExtractedFilters
          (providerResult "anthropic" "claude-3-5-sonnet-20241022" q parsed usage) q, rfl,
          Or.inr (Or.inr ⟨by rw [validate_metadata]; rfl, rfl⟩), fun h => ?_⟩
        rcases h.2 rfl with ⟨e, he⟩
        exact Except.noConfusion he
      | error e2 =>
        exact ⟨createBasicFilters q, congrArg ExtractPostResult.ok hbasic, Or.inl rfl,
          fun _ => ⟨rfl, rfl, rfl⟩⟩

/-- Witness for C4: no keys configured, both behaviours failing, a concrete
crisis query. -/
theorem extract_orchestration_total_witness :
    ∃ r, extractFiltersPOST ⟨false, false⟩ (Except.error "boom") (Except.error "boom2")
        "crisis help" = ExtractPostResult.ok r ∧
      (r.metadata.provider = "fallback" ∨
       (r.metadata.provider = "openai" ∧ (false : Bool) = true) ∨
       (r.metadata.provider = "anthropic" ∧ (false : Bool) = true)) ∧
      ((((false : Bool) = true → ∃ e, (Except.error "boom" : ProviderBehavior) = Except.error e) ∧
        ((false : Bool) = true → ∃ e, (Except.error "boom2" : ProviderBehavior) = Except.error e)) →
        r = createBasicFilters "crisis help" ∧ r.confidence = jsNumLit "0.3" ∧
        r.metadata.provider = "fallback") :=
  extract_orchestration_total ⟨false, false⟩ (Except.error "boom") (Except.error "boom2")
    "crisis help" (by decide)

/-! ## C10: FilterUtils URL round-trip -/

theorem uspSet_of_not_mem (k v : String) :
    ∀ (params : List (String × String)), (∀ p ∈ params, p.1 ≠ k) →
      uspSet params k v = params ++ [(k, v)]
  | [], _ => rfl
  | p :: rest, h => by
    have hp : p.1 ≠ k := h p (List.mem_cons_self _ _)
    rw [uspSet, if_neg hp,
      uspSet_of_not_mem k v rest (fun q hq => h q (List.mem_cons_of_mem _ hq))]
    rfl

theorem foldl_uspAppend (k : String) :
    ∀ (vs : List JSValue) (acc : List (String × String)),
      vs.foldl (fun ps el => uspAppend ps k (jsToString el)) acc =
        acc ++ vs.map (fun el => (k, jsToString el))
  | [], acc => by simp
  | v :: rest, acc => by
    rw [List.foldl_cons, foldl_uspAppend k rest]
    simp [uspAppend]

theorem entryBlock_key (k : String) (v : JSValue) : ∀ p ∈ entryBlock k v, p.1 = k := by
  intro p hp
  cases v with
  | null => simp [entryBlock] at hp
  | arr vs =>
    simp only [entryBlock, List.mem_map] at hp
    rcases hp with ⟨el, _, rfl⟩
    rfl
  | obj fs =>
    simp only [entryBlock, List.mem_singleton] at hp
    rw [hp]
  | str s =>
    simp only [entryBlock, List.mem_singleton] at hp
    rw [hp]
  | num n =>
    simp only [entryBlock, List.mem_singleton] at hp
    rw [hp]
  | bool b =>
    simp only [entryBlock, List.mem_singleton] at hp
    rw [hp]

theorem toURLParams_go :
    ∀ (entries : List (String × JSValue)) (acc : List (String × String)),
      (entries.map Prod.fst).Nodup →
      (∀ p ∈ acc, ∀ kv ∈ entries, p.1 ≠ kv.1) →
      entries.foldl (fun params kv =>
        match kv.2 with
        | JSValue.null => params
        | JSValue.arr vs => vs.foldl (fun ps el => uspAppend ps kv.1 (jsToString el)) params
        | JSValue.obj fs => uspSet params kv.1 (jsonStringify (JSValue.obj fs))
        | v => uspSet params kv.1 (jsToString v)) acc = acc ++ blocksOf entries
  | [], acc, _, _ => by simp [blocksOf]
  | (k, v) :: rest, acc, hnd, hdisj => by
    have hkey : ∀ p ∈ acc, p.1 ≠ k :=
      fun p hp => hdisj p hp (k, v) (List.mem_cons_self _ _)
    have hnd' : (rest.map Prod.fst).Nodup := (List.nodup_cons.1 hnd).2
    have hknotin : k ∉ rest.map Prod.fst := (List.nodup_cons.1 hnd).1
    have hstep : (match (k, v).2 with
        | JSValue.null => acc
        | JSValue.arr vs => vs.foldl (fun ps el => uspAppend ps (k, v).1 (jsToString el)) acc
        | JSValue.obj fs => uspSet acc (k, v).1 (jsonStringify (JSValue.obj fs))
        | w => uspSet acc (k, v).1 (jsToString w)) = acc ++ entryBlock k v := by
      cases v with
      | null => simp [entryBlock]
      | arr vs =>
        rw [show entryBlock k (JSValue.arr vs) =
          vs.map (fun el => (k, jsToString el)) from rfl]
        exact foldl_uspAppend k vs acc
      | obj fs =>
        rw [show entryBlock k (JSValue.obj fs) =
          [(k, jsonStringify (JSValue.obj fs))] from rfl]
        exact uspSet_of_not_mem k _ acc hkey
      | str s =>
        rw [show entryBlock k (JSValue.str s) =
          [(k, jsToString (JSValue.str s))] from rfl]
        exact uspSet_of_not_mem k _ acc hkey
      | num n =>
        rw [show entryBlock k (JSValue.num n) =
          [(k, jsToString (JSValue.num n))] from rfl]
        exact uspSet_of_not_mem k _ acc hkey
      | bool b =>
        rw [show entryBlock k (JSValue.bool b) =
          [(k, jsToString (JSValue.bool b))] from rfl]
        exact uspSet_of_not_mem k _ acc hkey
    rw [List.foldl_cons, hstep,
      toURLParams_go rest (acc ++ entryBlock k v) hnd' (by
        intro p hp kv hkv
        rcases List.mem_append.1 hp with hpa | hpb
        · exact hdisj p hpa kv (List.mem_cons_of_mem _ hkv)
        · rw [entryBlock_key k v p hpb]
          intro hcontra
          exact hknotin (hcontra ▸ List.mem_map_of_mem Prod.fst hkv)),
      blocksOf, List.append_assoc]

theorem toURLParams_eq_blocks {entries : List (String × JSValue)}
    (hnd : (entries.map Prod.fst).Nodup) :
    FilterUtils.toURLParams entries = blocksOf entries := by
  rw [FilterUtils.toURLParams]
  have h := toURLParams_go entries [] hnd (fun p hp => absurd hp (List.not_mem_nil p))
  rw [List.nil_append] at h
  exact h

theorem getAllVals_append (a b : List (String × String)) (k : String) :
    getAllVals (a ++ b) k = getAllVals a k ++ getAllVals b k := by
  simp [getAllVals, List.filter_append]

theorem getAllVals_eq_nil {params : List (String × String)} {k : String}
    (h : ∀ p ∈ params, p.1 ≠ k) : getAllVals params k = [] := by
  have : params.filter (fun p => p.1 == k) = [] :=
    List.filter_eq_nil_iff.2 (fun p hp => by simp only [beq_iff_eq]; exact h p hp)
  rw [getAllVals, this, List.map_nil]

theorem getAllVals_self_block {params : List (String × String)} {k : String}
    (h : ∀ p ∈ params, p.1 = k) : getAllVals params k = params.map Prod.snd := by
  rw [getAllVals, List.filter_eq_self.2 (fun p hp => by simp [h p hp])]

theorem getAllVals_blocksOf_nil :
    ∀ (entries : List (String × JSValue)) (k : String),
      (∀ kv ∈ entries, kv.1 ≠ k) → getAllVals (blocksOf entries) k = []
  | [], _, _ => rfl
  | (a, v) :: rest, k, h => by
    rw [blocksOf, getAllVals_append,
      getAllVals_eq_nil (fun p hp => by
        rw [entryBlock_key a v p hp]; exact h (a, v) (List.mem_cons_self _ _)),
      getAllVals_blocksOf_nil rest k (fun kv hkv => h kv (List.mem_cons_of_mem _ hkv))]
    rfl

theorem getAllVals_blocksOf :
    ∀ (entries : List (String × JSValue)) (k : String) (val : JSValue),
      (entries.map Prod.fst).Nodup → assocFind k entries = some val →
      getAllVals (blocksOf entries) k = (entryBlock k val).map Prod.snd
  | [], k, val, _, hfind => by simp [assocFind] at hfind
  | (a, v) :: rest, k, val, hnd, hfind => by
    rw [blocksOf, getAllVals_append]
    by_cases hak : a = k
    · subst hak
      rw [assocFind, if_pos rfl] at hfind
      cases hfind
      rw [getAllVals_self_block (entryBlock_key a v),
        getAllVals_blocksOf_nil rest a (by
          intro kv hkv hc
          refine (List.nodup_cons.1 hnd).1 ?_
          exact List.mem_map.2 ⟨kv, hkv, hc⟩),
        List.append_nil]
    · rw [assocFind, if_neg hak] at hfind
      rw [getAllVals_eq_nil (fun p hp => by rw [entryBlock_key a v p hp]; exact hak),
        List.nil_append]
      exact getAllVals_blocksOf rest k val (List.nodup_cons.1 hnd).2 hfind

theorem assocFind_map_setkey (k upd : String) (v : JSValue) (hne : upd ≠ k) :
    ∀ (o : List (String × JSValue)),
      assocFind upd (o.map (fun p => if p.1 == k then (k, v) else p)) = assocFind upd o
  | [] => rfl
  | p :: rest => by
    rw [List.map_cons]
    by_cases hp : p.1 = k
    · rw [if_pos (by simp [hp]), assocFind, assocFind,
        if_neg (show ¬((k, v).1 = upd) from fun hc => hne hc.symm),
        if_neg (show ¬(p.1 = upd) from fun hc => hne (hc.symm.trans hp))]
      exact assocFind_map_setkey k upd v hne rest
    · rw [if_neg (by simp [hp]), assocFind, assocFind]
      by_cases hp' : p.1 = upd
      · rw [if_pos hp', if_pos hp']
      · rw [if_neg hp', if_neg hp']
        exact assocFind_map_setkey k upd v hne rest

theorem assocFind_append_single (k upd : String) (v : JSValue) (hne : upd ≠ k) :
    ∀ (o : List (String × JSValue)), assocFind upd (o ++ [(k, v)]) = assocFind upd o
  | [] => by
    simp only [List.nil_append, assocFind]
    rw [if_neg (show ¬((k, v).1 = upd) from fun hc => hne hc.symm)]
  | p :: rest => by
    rw [List.cons_append, assocFind, assocFind]
    by_cases hp' : p.1 = upd
    · rw [if_pos hp', if_pos hp']
    · rw [if_neg hp', if_neg hp']
      exact assocFind_append_single k upd v hne rest

theorem assocFind_objAssign_other {k upd : String} {v : JSValue} (hne : upd ≠ k)
    (o : List (String × JSValue)) :
    assocFind upd (objAssign o k v) = assocFind upd o := by
  rw [objAssign]
  split
  · exact assocFind_map_setkey k upd v hne o
  · exact assocFind_append_single k upd v hne o

theorem assocFind_map_setkey_found (k : String) (v : JSValue) :
    ∀ (o : List (String × JSValue)), o.any (fun p => p.1 == k) = true →
      assocFind k (o.map (fun p => if p.1 == k then (k, v) else p)) = some v
  | [], h => by simp at h
  | p :: rest, h => by
    rw [List.map_cons]
    by_cases hp : p.1 = k
    · rw [if_pos (by simp [hp]), assocFind, if_pos rfl]
    · have h' : rest.any (fun p => p.1 == k) = true := by
        rw [List.any_cons] at h
        simpa [hp] using h
      rw [if_neg (by simp [hp]), assocFind, if_neg hp]
      exact assocFind_map_setkey_found k v rest h'

theorem assocFind_append_self (k : String) (v : JSValue) :
    ∀ (o : List (String × JSValue)), (∀ q ∈ o, q.1 ≠ k) →
      assocFind k (o ++ [(k, v)]) = some v
  | [], _ => by rw [List.nil_append, assocFind, if_pos rfl]
  | p :: rest, h => by
    rw [List.cons_append, assocFind, if_neg (h p (List.mem_cons_self _ _))]
    exact assocFind_append_self k v rest (fun q hq => h q (List.mem_cons_of_mem _ hq))

theorem assocFind_objAssign_self (o : List (String × JSValue)) (k : String) (v : JSValue) :
    assocFind k (objAssign o k v) = some v := by
  rw [objAssign]
  split
  · rename_i hany
    exact assocFind_map_setkey_found k v o hany
  · rename_i hany
    refine assocFind_append_self k v o (fun q hq hc => ?_)
    exact hany (List.any_eq_true.2 ⟨q, hq, by simp [hc]⟩)

theorem assocFind_foldl_objAssign (g : String → String → JSValue) :
    ∀ (ps : List (String × String)) (o : List (String × JSValue)) (k : String),
      assocFind k (ps.foldl (fun acc kv => objAssign acc kv.1 (g kv.1 kv.2)) o) =
        (match (getAllVals ps k).getLast? with
          | some w => some (g k w)
          | none => assocFind k o)
  | [], o, k => by simp [getAllVals]
  | (a, w0) :: rest, o, k => by
    rw [List.foldl_cons, assocFind_foldl_objAssign g rest (objAssign o a (g a w0)) k]
    by_cases hak : a = k
    · subst hak
      have hga : getAllVals ((a, w0) :: rest) a = w0 :: getAllVals rest a := by
        simp [getAllVals, List.filter_cons]
      rw [hga]
      cases hrest : (getAllVals rest a).getLast? with
      | some w =>
        have hcons : (w0 :: getAllVals rest a).getLast? = some w := by
          cases hl : getAllVals rest a with
          | nil => rw [hl] at hrest; simp at hrest
          | cons x xs =>
            rw [hl] at hrest
            rw [List.getLast?_cons_cons]
            exact hrest
        rw [hcons]
      | none =>
        have hnil : getAllVals rest a = [] := by
          cases hl : getAllVals rest a with
          | nil => rfl
          | cons x xs => rw [hl] at hrest; simp at hrest
        rw [hnil]
        rw [assocFind_objAssign_self]
        rfl
    · have hga : getAllVals ((a, w0) :: rest) k = getAllVals rest k := by
        simp [getAllVals, List.filter_cons, hak]
      rw [hga]
      cases hrest : (getAllVals rest k).getLast? with
      | some w => rfl
      | none => exact assocFind_objAssign_other (fun hc => hak hc.symm) o

theorem assocFind_fromURLParams (params : List (String × String)) (k : String) :
    assocFind k (FilterUtils.fromURLParams params) =
      (match (getAllVals params k).getLast? with
        | some w => some (if (getAllVals params k).length > 1 then
            JSValue.arr ((getAllVals params k).map JSValue.str)
          else parseScalar w)
        | none => none) := by
  rw [FilterUtils.fromURLParams]
  exact assocFind_foldl_objAssign
    (fun key w => if (getAllVals params key).length > 1 then
      JSValue.arr ((getAllVals params key).map JSValue.str)
    else parseScalar w) params [] k

theorem parseScalar_not_arr {s : String} (h1 : jsStartsWith s "\x7b" = false)
    (h2 : jsStartsWith s "[" = false) : isArr (parseScalar s) = false := by
  rw [parseScalar, if_neg (by simp [h1, h2])]
  by_cases ht : s = "true"
  · rw [if_pos ht]; rfl
  · rw [if_neg ht]
    by_cases hf : s = "false"
    · rw [if_pos hf]; rfl
    · rw [if_neg hf]
      cases hn : jsNumberOfString s with
      | some n => simp only [hn]; rfl
      | none => simp only [hn]; rfl

/-- Round-trip of a singleton array field: the key occurs once in the URL, so
`fromURLParams` re-parses it as a scalar. -/
theorem roundtrip_singleton {entries : List (String × JSValue)} {k : String}
    {v : JSValue} (hnd : (entries.map Prod.fst).Nodup)
    (hfind : assocFind k entries = some (JSValue.arr [v])) :
    assocFind k (FilterUtils.fromURLParams (FilterUtils.toURLParams entries)) =
      some (parseScalar (jsToString v)) := by
  rw [toURLParams_eq_blocks hnd, assocFind_fromURLParams]
  have hga : getAllVals (blocksOf entries) k = [jsToString v] := by
    rw [getAllVals_blocksOf entries k _ hnd hfind]
    rfl
  rw [hga]
  rfl

/-- Round-trip of an array field with at least two elements: the key repeats
in the URL, so the field survives as an array of the rendered strings. -/
theorem roundtrip_multi {entries : List (String × JSValue)} {k : String}
    {vs : List JSValue} (hnd : (entries.map Prod.fst).Nodup)
    (hfind : assocFind k entries = some (JSValue.arr vs)) (hlen : 2 ≤ vs.length) :
    assocFind k (FilterUtils.fromURLParams (FilterUtils.toURLParams entries)) =
      some (JSValue.arr (vs.map (fun el => JSValue.str (jsToString el)))) := by
  rw [toURLParams_eq_blocks hnd, assocFind_fromURLParams]
  have hga : getAllVals (blocksOf entries) k = vs.map jsToString := by
    rw [getAllVals_blocksOf entries k _ hnd hfind, entryBlock, List.map_map]
    rfl
  rw [hga]
  cases hlast : (vs.map jsToString).getLast? with
  | none =>
    exfalso
    cases hvs : vs.map jsToString with
    | nil =>
      have := congrArg List.length hvs
      rw [List.length_map, List.length_nil] at this
      omega
    | cons x xs => rw [hvs] at hlast; simp at hlast
  | some w =>
    have hgt : (vs.map jsToString).length > 1 := by
      rw [List.length_map]; omega
    show some (if (vs.map jsToString).length > 1 then
        JSValue.arr ((vs.map jsToString).map JSValue.str) else parseScalar w) =
      some (JSValue.arr (vs.map (fun el => JSValue.str (jsToString el))))
    rw [if_pos hgt, List.map_map]
    rfl

/-- C10 (amended).  A singleton array field never round-trips as an array:
`fromURLParams` returns the scalar re-parse of the element's rendering — the
string itself when it is not boolean-, number- or JSON-looking, but a boolean
or number otherwise, so "scalar", not always "scalar string".  Array fields
with two or more elements survive as arrays of rendered strings. -/
theorem filterUtils_roundtrip_arrays :
    (∀ (entries : List (String × JSValue)) (k : String) (v : JSValue),
      (entries.map Prod.fst).Nodup →
      assocFind k entries = some (JSValue.arr [v]) →
      assocFind k (FilterUtils.fromURLParams (FilterUtils.toURLParams entries)) =
        some (parseScalar (jsToString v)) ∧
      (jsStartsWith (jsToString v) "\x7b" = false →
        jsStartsWith (jsToString v) "[" = false →
        isArr (parseScalar (jsToString v)) = false)) ∧
    (∀ (entries : List (String × JSValue)) (k : String) (vs : List JSValue),
      (entries.map Prod.fst).Nodup →
      assocFind k entries = some (JSValue.arr vs) → 2 ≤ vs.length →
      assocFind k (FilterUtils.fromURLParams (FilterUtils.toURLParams entries)) =
        some (JSValue.arr (vs.map (fun el => JSValue.str (jsToString el))))) :=
  ⟨fun _ _ _ hnd hfind =>
    ⟨roundtrip_singleton hnd hfind, fun h1 h2 => parseScalar_not_arr h1 h2⟩,
   fun _ _ _ hnd hfind hlen => roundtrip_multi hnd hfind hlen⟩

/-- Witness for C10 at concrete filter objects. -/
theorem filterUtils_roundtrip_arrays_witness :
    (assocFind "service_types" (FilterUtils.fromURLParams (FilterUtils.toURLParams
        [("service_types", JSValue.arr [JSValue.str "crisis_line"])])) =
      some (parseScalar (jsToString (JSValue.str "crisis_line"))) ∧
      (jsStartsWith (jsToString (JSValue.str "crisis_line")) "\x7b" = false →
        jsStartsWith (jsToString (JSValue.str "crisis_line")) "[" = false →
        isArr (parseScalar (jsToString (JSValue.str "crisis_line"))) = false)) ∧
    assocFind "languages" (FilterUtils.fromURLParams (FilterUtils.toURLParams
        [("languages", JSValue.arr [JSValue.str "en", JSValue.str "es"])])) =
      some (JSValue.arr [JSValue.str (jsToString (JSValue.str "en")),
        JSValue.str (jsToString (JSValue.str "es"))]) :=
  ⟨filterUtils_roundtrip_arrays.1
      [("service_types", JSValue.arr [JSValue.str "crisis_line"])] "service_types"
      (JSValue.str "crisis_line") (by simp) rfl,
   filterUtils_roundtrip_arrays.2
      [("languages", JSValue.arr [JSValue.str "en", JSValue.str "es"])] "languages"
      [JSValue.str "en", JSValue.str "es"] (by simp) rfl (by decide)⟩

/-- C10 counterexample.  The singleton array `["988"]` round-trips to the JS
number 988, not to the string `"988"`: the claim's "scalar string" is false as
stated (the element is re-parsed by the numeric rule). -/
theorem roundtrip_singleton_coerces_to_number :
    assocFind "service_types"
        (FilterUtils.fromURLParams (FilterUtils.toURLParams entries988)) =
      some (JSValue.num ⟨"988", true, true⟩) ∧
    JSValue.num ⟨"988", true, true⟩ ≠ JSValue.str "988" := by
  constructor
  · rfl
  · intro h
    exact JSValue.noConfusion h

end CrisisPortal
